import Mathlib

/-!
Verification of `scripts/language-pack/copy_model.py` (Apache Joshua).

The Python source is shallowly embedded below.  Pure string helpers from the
Python standard library (`str.split`, `str.partition`, `str.replace`,
`os.path.basename`, `os.path.splitext`, `os.path.normpath`, `os.path.join`)
are translated to executable Lean functions over `String`/`List Char`;
the script's own functions (`extract_line_parts`, `line_specifies_path`,
`parse_path`, `get_unique_dest`, `process_line_containing_path`,
`collect_operations`, ...) are translated on top of them.  The mutable
global `duplicate_name_counts` dictionary becomes explicit state passing,
Python exceptions become an `Except` error monad, and the filesystem /
external-subprocess environment is passed in as function parameters.
-/

namespace CopyModel

/-! ## Python string primitives -/

/-- Whitespace characters recognized by Python's `str.split()` (ASCII part). -/
def pyIsSpace (c : Char) : Bool :=
  c = ' ' || c = '\t' || c = '\n' || c = '\r' || c = '\x0b' || c = '\x0c'

/-- Worker for `pySplit`: accumulates the current (reversed) token. -/
def pySplitAux : List Char → List Char → List String
  | [], acc => if acc = [] then [] else [String.mk acc.reverse]
  | c :: cs, acc =>
    if pyIsSpace c then
      if acc = [] then pySplitAux cs []
      else String.mk acc.reverse :: pySplitAux cs []
    else pySplitAux cs (c :: acc)

/-- Python `s.split()` (no separator): split on runs of whitespace,
discarding empty tokens. -/
def pySplit (s : String) : List String := pySplitAux s.data []

/-- Worker for `pySplitChar`. -/
def pySplitCharAux (sep : Char) : List Char → List Char → List String
  | [], acc => [String.mk acc.reverse]
  | c :: cs, acc =>
    if c = sep then String.mk acc.reverse :: pySplitCharAux sep cs []
    else pySplitCharAux sep cs (c :: acc)

/-- Python `s.split(sep)` for a one-character separator: keeps empty parts,
`"".split(sep) = [""]`. -/
def pySplitChar (s : String) (sep : Char) : List String :=
  pySplitCharAux sep s.data []

/-- Python `sep.join(parts)`. -/
def joinWith (sep : String) : List String → String
  | [] => ""
  | [s] => s
  | s :: rest => s ++ sep ++ joinWith sep rest

/-- Worker for `partitionHash`. -/
def partitionHashAux : List Char → List Char → String × String
  | [], acc => (String.mk acc.reverse, "")
  | c :: cs, acc =>
    if c = '#' then (String.mk acc.reverse, String.mk cs)
    else partitionHashAux cs (c :: acc)

/-- Python `line.partition('#')` with the separator dropped: the part before
the first `'#'` and the part after it (empty when there is no `'#'`, and
also when `'#'` is the last character). -/
def partitionHash (s : String) : String × String := partitionHashAux s.data []

/-- Worker for `pyReplace` (nonempty pattern): replace non-overlapping
occurrences left to right.  Structural recursion on a fuel argument keeps
the definition kernel-computable; each step consumes at least one
character, so fuel equal to the length of the scanned text suffices. -/
def pyReplaceAux (pat rep : List Char) : Nat → List Char → List Char
  | 0, s => s
  | fuel + 1, s =>
    match s with
    | [] => []
    | c :: cs =>
      if pat ≠ [] ∧ pat.isPrefixOf (c :: cs) then
        rep ++ pyReplaceAux pat rep fuel ((c :: cs).drop pat.length)
      else
        c :: pyReplaceAux pat rep fuel cs

/-- Python `s.replace(pat, rep)`: replaces every non-overlapping occurrence
of `pat`, scanning left to right; an empty pattern inserts `rep` around
every character. -/
def pyReplace (s pat rep : String) : String :=
  if pat = "" then
    String.mk (rep.data ++ s.data.foldr (fun c acc => c :: (rep.data ++ acc)) [])
  else
    String.mk (pyReplaceAux pat.data rep.data s.data.length s.data)

/-! ## POSIX path helpers (`os.path`) -/

/-- Worker for `basename`: keep the characters after the last `'/'`. -/
def basenameAux : List Char → List Char → List Char
  | [], acc => acc.reverse
  | c :: cs, acc =>
    if c = '/' then basenameAux cs []
    else basenameAux cs (c :: acc)

/-- `os.path.basename`: everything after the last `'/'`. -/
def basename (p : String) : String := String.mk (basenameAux p.data [])

/-- Worker for `lastIndexOf`. -/
def lastIndexOfAux (c : Char) : List Char → Nat → Option Nat → Option Nat
  | [], _, best => best
  | x :: xs, i, best =>
    lastIndexOfAux c xs (i + 1) (if x = c then some i else best)

/-- Index of the last occurrence of a character (Python `s.rfind`, with
`none` for "not found"). -/
def lastIndexOf (s : String) (c : Char) : Option Nat :=
  lastIndexOfAux c s.data 0 none

/-- `os.path.splitext`: split off the extension at the last `'.'` that lies
after the last `'/'`, unless all characters between them are dots (so that
dotfiles such as `".bashrc"` keep their name). -/
def splitext (p : String) : String × String :=
  let sepIndex : Int := match lastIndexOf p '/' with
    | some i => (i : Int)
    | none => -1
  let dotIndex : Int := match lastIndexOf p '.' with
    | some i => (i : Int)
    | none => -1
  if sepIndex < dotIndex then
    let d := dotIndex.toNat
    let between := (p.data.take d).drop (sepIndex + 1).toNat
    if between.any (fun c => c != '.') then
      (String.mk (p.data.take d), String.mk (p.data.drop d))
    else (p, "")
  else (p, "")

/-- `os.path.join` on two components. -/
def joinTwo (a b : String) : String :=
  if b.data.head? = some '/' then b
  else if a = "" ∨ a.data.getLast? = some '/' then a ++ b
  else a ++ "/" ++ b

/-- Number of initial slashes that `os.path.normpath` preserves: two for a
path starting with exactly two slashes, one for any other absolute path,
zero otherwise. -/
def initialSlashes (s : String) : Nat :=
  match s.data with
  | '/' :: '/' :: '/' :: _ => 1
  | '/' :: '/' :: _ => 2
  | '/' :: _ => 1
  | _ => 0

/-- One step of `os.path.normpath`'s component loop. -/
def normpathStep (hasInitialSlashes : Bool) (new_comps : List String)
    (comp : String) : List String :=
  if comp = "" ∨ comp = "." then new_comps
  else if comp ≠ ".." ∨ (hasInitialSlashes = false ∧ new_comps = []) ∨
      (new_comps ≠ [] ∧ new_comps.getLast? = some "..") then
    new_comps ++ [comp]
  else if new_comps ≠ [] then new_comps.dropLast
  else new_comps

/-- `os.path.normpath` (POSIX): collapse `.` and `..` segments and repeated
separators. -/
def normpath (path : String) : String :=
  if path = "" then "."
  else
    let islashes := initialSlashes path
    let comps := pySplitChar path '/'
    let new_comps := comps.foldl (normpathStep (islashes > 0)) []
    let joined := joinWith "/" new_comps
    let result := String.mk (List.replicate islashes '/') ++ joined
    if result = "" then "." else result

/-- Python list indexing `l[i]`, with negative indices counting from the
end; `none` models an `IndexError`. -/
def pyIndex (l : List String) (i : Int) : Option String :=
  if i ≥ 0 then l.get? i.toNat
  else if (-i).toNat ≤ l.length then l.get? (l.length - (-i).toNat)
  else none

/-- Decimal rendering of a natural number, digit by digit (Python's `str`
formatting of a non-negative integer); structural recursion on a fuel
argument keeps the definition kernel-computable, and any fuel above the
number suffices. -/
def natToDecAux : Nat → Nat → List Char → List Char
  | 0, _, acc => acc
  | fuel + 1, n, acc =>
    let acc' := Char.ofNat (48 + n % 10) :: acc
    if n < 10 then acc' else natToDecAux fuel (n / 10) acc'

/-- Decimal string of a natural number. -/
def natToDec (n : Nat) : String := String.mk (natToDecAux (n + 1) n [])

/-! ## The script's data model -/

/-- `FILE_TYPE_TOKENS = ['lm', 'tm']`. -/
def FILE_TYPE_TOKENS : List String := ["lm", "tm"]

/-- `FILE_TYPE_OPTIONS = ['-path', '-lm_file']`. -/
def FILE_TYPE_OPTIONS : List String := ["-path", "-lm_file"]

/-- `OUTPUT_CONFIG_FILE_NAME = 'joshua.config'`. -/
def OUTPUT_CONFIG_FILE_NAME : String := "joshua.config"

/-- The `LineParts` namedtuple: config portion and comment portion of a
configuration line. -/
structure LineParts where
  config : String
  comment : String
deriving DecidableEq, Repr

/-- Python exceptions that the script can raise while planning:
`PathException` (with its message), `IndexError` from list indexing, and a
plain `Exception` (used for the pre-existing destination directory). -/
inductive PyError where
  | pathException (msg : String)
  | indexError
  | exception (msg : String)
deriving DecidableEq, Repr

instance {ε α : Type} [DecidableEq ε] [DecidableEq α] :
    DecidableEq (Except ε α) := fun x y =>
  match x, y with
  | Except.ok a, Except.ok b =>
    if h : a = b then isTrue (by rw [h])
    else isFalse (fun hh => h (Except.ok.inj hh))
  | Except.error e, Except.error f =>
    if h : e = f then isTrue (by rw [h])
    else isFalse (fun hh => h (Except.error.inj hh))
  | Except.ok _, Except.error _ => isFalse (fun hh => Except.noConfusion hh)
  | Except.error _, Except.ok _ => isFalse (fun hh => Except.noConfusion hh)

/-- `extract_line_parts`: split a line at the first `'#'`. -/
def extract_line_parts (line : String) : LineParts :=
  let p := partitionHash line
  ⟨p.1, p.2⟩

/-- `line_specifies_path`: `True` iff the config portion's first token is a
file-type keyword or some token is a path-bearing flag. -/
def line_specifies_path (line : String) : Bool :=
  let line_parts := extract_line_parts line
  if line_parts.config = "" then false
  else
    match pySplit line_parts.config with
    | [] => false
    | t₀ :: rest =>
      if t₀ ∈ FILE_TYPE_TOKENS then true
      else if (t₀ :: rest).any (fun t => decide (t ∈ FILE_TYPE_OPTIONS)) then
        true
      else false

/-- The flag-priority loop of `parse_path`: the Python `for path_opt in
FILE_TYPE_OPTIONS` loop computing `path_index` (`-1` when no flag is
present). -/
def parsePathIndexGo (config_tokens : List String) : List String → Int
  | [] => -1
  | opt :: rest =>
    if opt ∈ config_tokens then ((config_tokens.indexOf opt : Nat) : Int) + 1
    else parsePathIndexGo config_tokens rest

/-- `parse_path`: the token after the first `-path`/`-lm_file` flag (checked
in that priority order), or the last token when no flag is present;
`IndexError` when the indexing is out of range. -/
def parse_path (config_line : String) : Except PyError String :=
  let config_tokens := pySplit config_line
  let path_index := parsePathIndexGo config_tokens FILE_TYPE_OPTIONS
  match pyIndex config_tokens path_index with
  | some s => Except.ok s
  | none => Except.error PyError.indexError

/-- `get_unique_dest`: state-passing translation of the function mutating
the global `duplicate_name_counts` dictionary.  Returns the assigned
destination basename together with the updated counts. -/
def get_unique_dest (counts : String → Nat) (name : String) :
    String × (String → Nat) :=
  let times_seen := counts name + 1
  let counts' : String → Nat := fun m => if m = name then times_seen else counts m
  let se := splitext name
  let result :=
    if times_seen > 1 then se.1 ++ "." ++ natToDec times_seen ++ se.2
    else name
  (result, counts')

/-- Worker for `runAssign`: thread the counts state through a call
sequence. -/
def runAssignAux (counts : String → Nat) : List String → List String
  | [] => []
  | n :: ns =>
    let r := get_unique_dest counts n
    r.1 :: runAssignAux r.2 ns

/-- The results of a sequence of `get_unique_dest` calls within one run
(the registry starts empty). -/
def runAssign (names : List String) : List String :=
  runAssignAux (fun _ => 0) names

/-- A deferred filesystem operation: the callable and its arguments, as
queued by `collect_operations`. -/
inductive Operation where
  | rmtree (dir : String)
  | makedirs (dir : String)
  | copy (src dest : String) (symlink : Bool)
  | writeFile (path text : String)
  | chmod (path : String) (mode : Nat)
deriving DecidableEq, Repr

/-- A queued operation entry: the operation plus its logging message
(the Python `(function, (arguments,), 'logging message')` tuple). -/
structure OpEntry where
  op : Operation
  msg : String
deriving DecidableEq, Repr

/-- `stat.S_IREAD` (octal 400). -/
def S_IREAD : Nat := 256

/-- `stat.S_IRGRP` (octal 40). -/
def S_IRGRP : Nat := 32

/-- `stat.S_IROTH` (octal 4). -/
def S_IROTH : Nat := 4

/-- `stat.S_IEXEC` (octal 100). -/
def S_IEXEC : Nat := 64

/-- `stat.S_IXGRP` (octal 10). -/
def S_IXGRP : Nat := 8

/-- `stat.S_IXOTH` (octal 1). -/
def S_IXOTH : Nat := 1

/-- The mode passed to `os.chmod` for the bundle runner file. -/
def launcher_mode : Nat :=
  S_IREAD ||| S_IRGRP ||| S_IROTH ||| S_IEXEC ||| S_IXGRP ||| S_IXOTH

/-- `bundle_runner_text(mem)`: the launcher script template with the memory
setting substituted for `%s`. -/
def bundle_runner_text (mem : String) : String :=
  "#!/bin/bash
# Licensed to the Apache Software Foundation (ASF) under one or more
# contributor license agreements.  See the NOTICE file distributed with
# this work for additional information regarding copyright ownership.
# The ASF licenses this file to You under the Apache License, Version 2.0
# (the \"License\"); you may not use this file except in compliance with
# the License.  You may obtain a copy of the License at
#
#     http://www.apache.org/licenses/LICENSE-2.0
#
# Unless required by applicable law or agreed to in writing, software
# distributed under the License is distributed on an \"AS IS\" BASIS,
# WITHOUT WARRANTIES OR CONDITIONS OF ANY KIND, either express or implied.
# See the License for the specific language governing permissions and
# limitations under the License.

# Joshua decoder invocation script.
#
# This script takes care of passing arguments to Java and to the
# Joshua decoder. It changes to the current directory so that paths in
# the config file are relative to the current directory. Usage:
#
# joshua [-m memory] [Joshua arguments]
#
# The default amount of memory is 4gb.

NUM_ARGS=0
E_OPTERROR=1

## memory usage; default is 4 GB
mem=" ++ mem ++ "

if [[ $1 == \"-m\" ]]; then
    mem=$2
    shift
    shift
fi

set -u

bundledir=$(dirname $0)
cd $bundledir   # relative paths are now safe....

exec java -mx${mem} \\
    -Dfile.encoding=utf8 \\
    -Djava.library.path=./lib \\
    -cp ./target/joshua-*-jar-with-dependencies.jar \\
    org.apache.joshua.decoder.JoshuaDecoder -c joshua.config -v 0 \"$@\"
"

/-- `process_line_containing_path`: plan the copy operation for a
path-bearing line and rewrite its config portion.  The filesystem's
`os.path.exists` is the parameter `pathExists`; the counts state is
threaded explicitly (it is updated even when `validate_path` then raises a
`PathException`, matching the mutation order of the Python code). -/
def process_line_containing_path (line dest_dir : String)
    (symlink absolute : Bool) (counts : String → Nat)
    (pathExists : String → Bool) :
    (String → Nat) × Except PyError (String × OpEntry) :=
  let line_parts := extract_line_parts line
  match parse_path line_parts.config with
  | Except.error e => (counts, Except.error e)
  | Except.ok src_path =>
    let src_name := basename src_path
    let gud := get_unique_dest counts src_name
    let dest_name := gud.1
    let full_src_path := normpath src_path
    if pathExists full_src_path then
      let dest_path := joinTwo (joinTwo dest_dir "model") dest_name
      let operation : OpEntry :=
        ⟨Operation.copy full_src_path dest_path symlink,
         "Making a copy of " ++ full_src_path ++ " at " ++ dest_path⟩
      let updated_config := pyReplace line_parts.config src_path
        (if absolute then dest_path else joinTwo "model" dest_name)
      let newline :=
        if line_parts.comment ≠ "" then
          updated_config ++ "#" ++ line_parts.comment
        else updated_config
      (gud.2, Except.ok (newline, operation))
    else
      (gud.2, Except.error (PyError.pathException
        ("The path \"" ++ full_src_path ++ "\" does not exist. Cannot proceed.")))

/-- The command-line options relevant to `collect_operations`, plus the
name and already-read text of the config file. -/
structure Opts where
  config_name : String
  config_text : String
  dest_dir : String
  force : Bool
  copy_config_options : String
  mem : String
  symlink : Bool
  absolute : Bool
deriving DecidableEq, Repr

/-- The config text that `collect_operations` actually processes: the
source text, piped through the external `copy-config.pl` filter (modelled
by the parameter `filterFn`) when the options string is non-empty. -/
def effectiveConfigText (opts : Opts) (filterFn : String → String → String) :
    String :=
  if opts.copy_config_options ≠ "" then
    filterFn opts.config_text opts.copy_config_options
  else opts.config_text

/-- The per-line loop of `collect_operations`: classify each line, process
path-bearing lines (prepending the config file name and 1-based line
number to a `PathException`'s message and re-raising it), and accumulate
the rewritten lines, the queued copy operations and the final counts
state. -/
def processLines (opts : Opts) (pathExists : String → Bool) :
    List String → Nat → (String → Nat) →
    Except PyError (List String × List OpEntry × (String → Nat))
  | [], _, counts => Except.ok ([], [], counts)
  | line :: rest, line_num, counts =>
    if line_specifies_path line then
      match process_line_containing_path line opts.dest_dir opts.symlink
          opts.absolute counts pathExists with
      | (counts', Except.error (PyError.pathException m)) =>
        Except.error (PyError.pathException
          ("ERROR: Configuration file \"" ++ opts.config_name ++ "\" line " ++
            natToDec line_num ++ ": " ++ m))
      | (counts', Except.error e) => Except.error e
      | (counts', Except.ok (newline, operation)) =>
        match processLines opts pathExists rest (line_num + 1) counts' with
        | Except.error e => Except.error e
        | Except.ok (lines, ops, counts'') =>
          Except.ok (newline :: lines, operation :: ops, counts'')
    else
      match processLines opts pathExists rest (line_num + 1) counts with
      | Except.error e => Except.error e
      | Except.ok (lines, ops, counts'') =>
        Except.ok (line :: lines, ops, counts'')

/-- `collect_operations`: build the full ordered plan, or fail with the
first error.  `pathExists` models `os.path.exists` and `filterFn` the
external `copy-config.pl` subprocess. -/
def collect_operations (opts : Opts) (pathExists : String → Bool)
    (filterFn : String → String → String) : Except PyError (List OpEntry) :=
  let dirExists := pathExists opts.dest_dir
  if dirExists && !opts.force then
    Except.error (PyError.exception
      ("ERROR: The destination directory exists: \"" ++ opts.dest_dir ++
        "\"\nUse -f or --force option to overwrite the directory."))
  else
    let ops₀ : List OpEntry :=
      if dirExists then
        [⟨Operation.rmtree opts.dest_dir,
          "Forcing deletion of existing destination directory \"" ++
            opts.dest_dir ++ "\""⟩]
      else []
    let ops₁ := ops₀ ++
      [⟨Operation.makedirs (joinTwo opts.dest_dir "model"),
        "Creating destination directory \"" ++ opts.dest_dir ++ "\""⟩]
    let config_text := effectiveConfigText opts filterFn
    let config_lines := pySplitChar config_text '\n'
    match processLines opts pathExists config_lines 1 (fun _ => 0) with
    | Except.error e => Except.error e
    | Except.ok (result_config_lines, line_ops, _) =>
      let out_path := joinTwo opts.dest_dir OUTPUT_CONFIG_FILE_NAME
      let out_text := joinWith "\n" result_config_lines ++ "\n"
      let runner_path := joinTwo opts.dest_dir "joshua"
      Except.ok (ops₁ ++ line_ops ++
        [⟨Operation.writeFile out_path out_text,
          "Writing the updated joshua.config to " ++ out_path⟩,
         ⟨Operation.writeFile runner_path (bundle_runner_text opts.mem),
          "Writing the bundle runner file \"" ++ runner_path ++ "\""⟩,
         ⟨Operation.chmod runner_path launcher_mode,
          "Making the bundle runner file executable"⟩])

/-- The operations that one invocation of `main` hands to
`execute_operations`: the planned list when planning succeeds, nothing at
all when `collect_operations` raises (the exception is caught in `main`
and the process exits via `error_quit` without reaching the executor). -/
def executedOperations (opts : Opts) (pathExists : String → Bool)
    (filterFn : String → String → String) : List OpEntry :=
  match collect_operations opts pathExists filterFn with
  | Except.ok ops => ops
  | Except.error _ => []

/-- The process exit code of `main`: `0` on success, `2` when any exception
is caught (`error_quit`). -/
def mainExitCode (opts : Opts) (pathExists : String → Bool)
    (filterFn : String → String → String) : Nat :=
  match collect_operations opts pathExists filterFn with
  | Except.ok _ => 0
  | Except.error _ => 2

/-- The argparse default of the `-o` (long form `--copy-config-options`)
flag. -/
def default_copy_config_options : String :=
  "-top-n 0 -output-format %S -mark-oovs false"

/-- Consecutive token pairs of an options string. -/
def optionPairs (s : String) : List (String × String) :=
  let toks := pySplit s
  toks.zip toks.tail

/-- Modelled from the spec: the interpretation of option strings by the
external config-normalization program (`scripts/copy-config.pl` and the
decoder it configures — code of this repository that is not under `src/`).
Per the spec, the default options string "enables top-1 output": setting
the `top-n` option to `0` turns the n-best list off, so exactly the single
best (top-1) translation is output. -/
def enables_top1_output (s : String) : Bool :=
  (optionPairs s).contains ("-top-n", "0")

/-- Modelled from the spec: a fixed output format is selected by passing an
explicit `-output-format` value to the external normalization program. -/
def fixes_output_format (s : String) : Bool :=
  (optionPairs s).contains ("-output-format", "%S")

/-- Modelled from the spec: OOV marking is disabled by passing
`-mark-oovs false` to the external normalization program. -/
def disables_oov_marking (s : String) : Bool :=
  (optionPairs s).contains ("-mark-oovs", "false")

/-- Number of occurrences of a string in a list (occurrence counting of the
destination-name registry). -/
def countOcc (name : String) : List String → Nat
  | [] => 0
  | x :: xs => (if x = name then 1 else 0) + countOcc name xs

/-- A second definition of `parse_path`, following the claim's words: if a
recognized path-bearing flag is present (checked in the fixed priority
order `-path`, `-lm_file`), the result is the token immediately following
the first occurrence of that flag, and otherwise the last token; `none`
models the extraction failure. -/
def parse_path_claimed (config_line : String) : Option String :=
  let toks := pySplit config_line
  match FILE_TYPE_OPTIONS.find? (fun o => decide (o ∈ toks)) with
  | some o => toks.get? (toks.indexOf o + 1)
  | none => toks.getLast?

/-! ## Helper lemmas: decimal strings -/

theorem natToDecAux_succ (fuel n : Nat) (acc : List Char) :
    natToDecAux (fuel + 1) n acc =
      if n < 10 then Char.ofNat (48 + n % 10) :: acc
      else natToDecAux fuel (n / 10) (Char.ofNat (48 + n % 10) :: acc) := rfl

theorem natToDecAux_eq_append (fuel n : Nat) (acc : List Char)
    (hf : n < fuel) :
    natToDecAux fuel n acc = natToDecAux fuel n [] ++ acc := by
  induction fuel generalizing n acc with
  | zero => omega
  | succ fuel ih =>
    rw [natToDecAux_succ, natToDecAux_succ]
    by_cases h : n < 10
    · simp [h]
    · have hlt : n / 10 < fuel := by
        have : n / 10 < n := Nat.div_lt_self (by omega) (by omega)
        omega
      rw [if_neg h, if_neg h,
        ih (n / 10) (Char.ofNat (48 + n % 10) :: acc) hlt,
        ih (n / 10) [Char.ofNat (48 + n % 10)] hlt, List.append_assoc]
      rfl

theorem natToDecAux_ne_nil (fuel n : Nat) (hf : n < fuel) :
    natToDecAux fuel n [] ≠ [] := by
  cases fuel with
  | zero => omega
  | succ fuel =>
    rw [natToDecAux_succ]
    by_cases h : n < 10
    · simp [h]
    · have hlt : n / 10 < fuel := by
        have : n / 10 < n := Nat.div_lt_self (by omega) (by omega)
        omega
      rw [if_neg h, natToDecAux_eq_append fuel (n / 10) _ hlt]
      simp

/-- Value of a big-endian digit string (used to invert `natToDec`). -/
def decValue (a : Nat) (cs : List Char) : Nat :=
  cs.foldl (fun a c => a * 10 + (c.toNat - 48)) a

theorem decValue_append (a : Nat) (xs ys : List Char) :
    decValue a (xs ++ ys) = decValue (decValue a xs) ys := by
  simp [decValue, List.foldl_append]

theorem digitChar_toNat (m : Nat) (h : m < 10) :
    (Char.ofNat (48 + m)).toNat = 48 + m := by
  interval_cases m <;> decide

theorem decValue_natToDecAux (fuel n : Nat) (hf : n < fuel) :
    decValue 0 (natToDecAux fuel n []) = n := by
  induction fuel generalizing n with
  | zero => omega
  | succ fuel ih =>
    rw [natToDecAux_succ]
    have hdig : (Char.ofNat (48 + n % 10)).toNat = 48 + n % 10 :=
      digitChar_toNat (n % 10) (Nat.mod_lt n (by omega))
    by_cases h : n < 10
    · rw [if_pos h]
      show 0 * 10 + ((Char.ofNat (48 + n % 10)).toNat - 48) = n
      rw [hdig]
      omega
    · have hlt : n / 10 < fuel := by
        have : n / 10 < n := Nat.div_lt_self (by omega) (by omega)
        omega
      rw [if_neg h, natToDecAux_eq_append fuel (n / 10) _ hlt,
        decValue_append, ih (n / 10) hlt]
      show n / 10 * 10 + ((Char.ofNat (48 + n % 10)).toNat - 48) = n
      rw [hdig]
      omega

theorem natToDec_injective (m n : Nat) (h : natToDec m = natToDec n) :
    m = n := by
  have hd : natToDecAux (m + 1) m [] = natToDecAux (n + 1) n [] :=
    congrArg String.data h
  have hm := decValue_natToDecAux (m + 1) m (by omega)
  rw [hd, decValue_natToDecAux (n + 1) n (by omega)] at hm
  omega

theorem natToDec_data_length_pos (n : Nat) : 0 < (natToDec n).data.length := by
  have hne := natToDecAux_ne_nil (n + 1) n (by omega)
  cases he : natToDecAux (n + 1) n [] with
  | nil => exact absurd he hne
  | cons c cs => simp [natToDec, he]

/-! ## Helper lemmas: strings and splitext -/

theorem string_mk_append (a b : List Char) :
    String.mk a ++ String.mk b = String.mk (a ++ b) := rfl

theorem string_append_empty (s : String) : s ++ "" = s := by
  cases s with
  | mk d =>
    rw [show (String.mk d ++ "" : String) = String.mk (d ++ []) from rfl,
      List.append_nil]

theorem splitext_fst_append_snd (p : String) :
    (splitext p).1 ++ (splitext p).2 = p := by
  cases p with
  | mk d =>
    simp only [splitext]
    split
    · split
      · rw [string_mk_append]
        show String.mk _ = String.mk d
        rw [List.take_append_drop]
      · exact string_append_empty _
    · exact string_append_empty _

/-! ## Helper lemmas: the destination namer -/

theorem countOcc_append (name : String) (xs ys : List String) :
    countOcc name (xs ++ ys) = countOcc name xs + countOcc name ys := by
  induction xs with
  | nil => simp [countOcc]
  | cons x xs ih => simp [countOcc, ih]; omega

theorem runAssignAux_length (counts : String → Nat) (names : List String) :
    (runAssignAux counts names).length = names.length := by
  induction names generalizing counts with
  | nil => rfl
  | cons n ns ih => simp [runAssignAux, ih]

theorem runAssign_length (names : List String) :
    (runAssign names).length = names.length := runAssignAux_length _ _

/-- The positional characterization of the destination namer: the i-th
result is the i-th input name when its adjusted occurrence count is 1, and
otherwise carries the count as a numeric infix before the extension. -/
theorem runAssignAux_get (names : List String) (counts : String → Nat)
    (i : Nat) (h : i < names.length)
    (h' : i < (runAssignAux counts names).length) :
    (runAssignAux counts names).get ⟨i, h'⟩ =
      (if counts (names.get ⟨i, h⟩) +
          countOcc (names.get ⟨i, h⟩) (names.take (i + 1)) = 1
       then names.get ⟨i, h⟩
       else (splitext (names.get ⟨i, h⟩)).1 ++ "." ++
         natToDec (counts (names.get ⟨i, h⟩) +
           countOcc (names.get ⟨i, h⟩) (names.take (i + 1))) ++
         (splitext (names.get ⟨i, h⟩)).2) := by
  induction names generalizing counts i with
  | nil => exact absurd h (by simp)
  | cons nm ns ih =>
    cases i with
    | zero =>
      have hout : (runAssignAux counts (nm :: ns)).get ⟨0, h'⟩ =
          (get_unique_dest counts nm).1 := rfl
      have hget : (nm :: ns).get ⟨0, h⟩ = nm := rfl
      have hcnt : countOcc nm ((nm :: ns).take (0 + 1)) = 1 := by
        simp [countOcc]
      rw [hout, hget, hcnt]
      simp only [get_unique_dest]
      by_cases h0 : counts nm = 0
      · simp [h0]
      · rw [if_pos (by omega : counts nm + 1 > 1),
          if_neg (by omega : ¬ counts nm + 1 = 1)]
    | succ i =>
      have hns : i < ns.length := Nat.lt_of_succ_lt_succ h
      have hns' : i < (runAssignAux (get_unique_dest counts nm).2 ns).length := by
        rw [runAssignAux_length]; exact hns
      have hout : (runAssignAux counts (nm :: ns)).get ⟨i + 1, h'⟩ =
          (runAssignAux (get_unique_dest counts nm).2 ns).get ⟨i, hns'⟩ := rfl
      have hget : (nm :: ns).get ⟨i + 1, h⟩ = ns.get ⟨i, hns⟩ := rfl
      have htake : (nm :: ns).take (i + 1 + 1) = nm :: ns.take (i + 1) := rfl
      rw [hout, ih (get_unique_dest counts nm).2 i hns hns', hget, htake]
      have hcnt : countOcc (ns.get ⟨i, hns⟩) (nm :: ns.take (i + 1)) =
          (if nm = ns.get ⟨i, hns⟩ then 1 else 0) +
            countOcc (ns.get ⟨i, hns⟩) (ns.take (i + 1)) := rfl
      rw [hcnt]
      have hc2 : (get_unique_dest counts nm).2 (ns.get ⟨i, hns⟩) =
          counts (ns.get ⟨i, hns⟩) + (if nm = ns.get ⟨i, hns⟩ then 1 else 0) := by
        simp only [get_unique_dest]
        by_cases he : ns.get ⟨i, hns⟩ = nm
        · rw [if_pos he, if_pos he.symm, he]
        · rw [if_neg he, if_neg (fun hh => he hh.symm), Nat.add_zero]
      rw [hc2, Nat.add_assoc]

/-! ## Helper lemmas: classifier and extractor -/

theorem pySplit_empty : pySplit "" = [] := rfl

theorem line_specifies_path_iff (line : String) :
    line_specifies_path line = true ↔
      ∃ t₀ rest, pySplit (extract_line_parts line).config = t₀ :: rest ∧
        (t₀ ∈ FILE_TYPE_TOKENS ∨ ∃ t ∈ t₀ :: rest, t ∈ FILE_TYPE_OPTIONS) := by
  constructor
  · intro hval
    simp only [line_specifies_path] at hval
    by_cases hc : (extract_line_parts line).config = ""
    · rw [if_pos hc] at hval; cases hval
    · rw [if_neg hc] at hval
      cases hsp : pySplit (extract_line_parts line).config with
      | nil => rw [hsp] at hval; cases hval
      | cons t₀ rest =>
        rw [hsp] at hval
        have hval' : (if t₀ ∈ FILE_TYPE_TOKENS then true
            else if (t₀ :: rest).any (fun t => decide (t ∈ FILE_TYPE_OPTIONS))
              then true else false) = true := hval
        refine ⟨t₀, rest, rfl, ?_⟩
        by_cases h1 : t₀ ∈ FILE_TYPE_TOKENS
        · exact Or.inl h1
        · rw [if_neg h1] at hval'
          by_cases h2 : ((t₀ :: rest).any fun t => decide (t ∈ FILE_TYPE_OPTIONS)) = true
          · refine Or.inr ?_
            rcases List.any_eq_true.mp h2 with ⟨t, ht, hdec⟩
            exact ⟨t, ht, of_decide_eq_true hdec⟩
          · rw [if_neg h2] at hval'; cases hval'
  · rintro ⟨t₀, rest, hsp, hor⟩
    have hc : (extract_line_parts line).config ≠ "" := by
      intro hc
      rw [hc] at hsp
      have : ([] : List String) = t₀ :: rest := hsp
      cases this
    simp only [line_specifies_path]
    rw [if_neg hc, hsp]
    show (if t₀ ∈ FILE_TYPE_TOKENS then true
      else if (t₀ :: rest).any (fun t => decide (t ∈ FILE_TYPE_OPTIONS))
        then true else false) = true
    rcases hor with h1 | ⟨t, ht, hopt⟩
    · rw [if_pos h1]
    · by_cases h1 : t₀ ∈ FILE_TYPE_TOKENS
      · rw [if_pos h1]
      · rw [if_neg h1,
          if_pos (List.any_eq_true.mpr ⟨t, ht, decide_eq_true hopt⟩)]

theorem pyIndex_ofNat (l : List String) (j : Nat) :
    pyIndex l (j : Int) = l.get? j := by
  simp [pyIndex]

theorem pyIndex_neg_one (l : List String) : pyIndex l (-1) = l.getLast? := by
  cases l with
  | nil => simp [pyIndex]
  | cons x xs =>
    have h1 : ((-(-1 : Int)).toNat ≤ (x :: xs).length) = True := by
      simp
    simp only [pyIndex, show ((-1 : Int) ≥ 0) = False by simp, if_false, h1,
      if_true]
    rw [List.getLast?_eq_getElem?, List.get?_eq_getElem?]
    norm_num

theorem parse_path_eq_pyIndex (cfg : String) :
    (parse_path cfg).toOption =
      pyIndex (pySplit cfg) (parsePathIndexGo (pySplit cfg) FILE_TYPE_OPTIONS) := by
  cases hpi : pyIndex (pySplit cfg) (parsePathIndexGo (pySplit cfg) FILE_TYPE_OPTIONS) with
  | some s => simp [parse_path, hpi, Except.toOption]
  | none => simp [parse_path, hpi, Except.toOption]

/-- `parse_path` agrees with the claim's description `parse_path_claimed`
(up to representing the `IndexError` as `none`). -/
theorem parse_path_eq_claimed (cfg : String) :
    (parse_path cfg).toOption = parse_path_claimed cfg := by
  rw [parse_path_eq_pyIndex]
  by_cases h1 : "-path" ∈ pySplit cfg
  · have hgo : parsePathIndexGo (pySplit cfg) FILE_TYPE_OPTIONS =
        (((pySplit cfg).indexOf "-path" + 1 : Nat) : Int) := by
      simp only [FILE_TYPE_OPTIONS, parsePathIndexGo, if_pos h1]
      push_cast
      ring
    rw [hgo, pyIndex_ofNat]
    have hfind : FILE_TYPE_OPTIONS.find? (fun o => decide (o ∈ pySplit cfg)) =
        some "-path" := by
      simp [FILE_TYPE_OPTIONS, List.find?, h1]
    simp [parse_path_claimed, hfind]
  · by_cases h2 : "-lm_file" ∈ pySplit cfg
    · have hgo : parsePathIndexGo (pySplit cfg) FILE_TYPE_OPTIONS =
          (((pySplit cfg).indexOf "-lm_file" + 1 : Nat) : Int) := by
        simp only [FILE_TYPE_OPTIONS, parsePathIndexGo, if_neg h1, if_pos h2]
        push_cast
        ring
      rw [hgo, pyIndex_ofNat]
      have hfind : FILE_TYPE_OPTIONS.find? (fun o => decide (o ∈ pySplit cfg)) =
          some "-lm_file" := by
        simp [FILE_TYPE_OPTIONS, List.find?, h1, h2]
      simp [parse_path_claimed, hfind]
    · have hgo : parsePathIndexGo (pySplit cfg) FILE_TYPE_OPTIONS = -1 := by
        simp only [FILE_TYPE_OPTIONS, parsePathIndexGo, if_neg h1, if_neg h2]
      rw [hgo, pyIndex_neg_one]
      have hfind : FILE_TYPE_OPTIONS.find? (fun o => decide (o ∈ pySplit cfg)) =
          none := by
        simp [FILE_TYPE_OPTIONS, List.find?, h1, h2]
      simp [parse_path_claimed, hfind]

/-- `parse_path` hits an `IndexError` when the priority-matched flag is the
final token of the config portion. -/
theorem parse_path_flag_last (cfg : String) (ts : List String) (opt : String)
    (htoks : pySplit cfg = ts ++ [opt])
    (hopt : opt ∈ FILE_TYPE_OPTIONS)
    (hts : ∀ o ∈ FILE_TYPE_OPTIONS, o ∉ ts) :
    parse_path cfg = Except.error PyError.indexError := by
  have hopt' : opt = "-path" ∨ opt = "-lm_file" := by
    simpa [FILE_TYPE_OPTIONS] using hopt
  have hgo : parsePathIndexGo (pySplit cfg) FILE_TYPE_OPTIONS =
      ((ts.length + 1 : Nat) : Int) := by
    rw [htoks]
    have hidx : (ts ++ [opt]).indexOf opt = ts.length := by
      rw [List.indexOf_append_of_not_mem (hts opt hopt),
        List.indexOf_cons_self]
      omega
    rcases hopt' with h | h
    · subst h
      have hmem : "-path" ∈ ts ++ ["-path"] := by simp
      simp only [FILE_TYPE_OPTIONS, parsePathIndexGo, if_pos hmem, hidx]
      push_cast
      ring
    · subst h
      have hnp : "-path" ∉ ts ++ ["-lm_file"] := by
        intro hmem
        rcases List.mem_append.mp hmem with hin | hin
        · exact hts "-path" (by simp [FILE_TYPE_OPTIONS]) hin
        · simp at hin
      have hmem : "-lm_file" ∈ ts ++ ["-lm_file"] := by simp
      simp only [FILE_TYPE_OPTIONS, parsePathIndexGo, if_neg hnp,
        if_pos hmem, hidx]
      push_cast
      ring
  have hnone : pyIndex (pySplit cfg)
      (parsePathIndexGo (pySplit cfg) FILE_TYPE_OPTIONS) = none := by
    rw [hgo, pyIndex_ofNat, htoks]
    apply List.get?_eq_none.mpr
    simp
  simp [parse_path, hnone]

/-! ## Helper lemmas: the planning loop -/

theorem processLines_cons_false (opts : Opts) (pathExists : String → Bool)
    (x : String) (rest : List String) (n : Nat) (counts : String → Nat)
    (h : line_specifies_path x = false) :
    processLines opts pathExists (x :: rest) n counts =
      (match processLines opts pathExists rest (n + 1) counts with
       | Except.error e => Except.error e
       | Except.ok (lines, ops, counts'') =>
         Except.ok (x :: lines, ops, counts'')) := by
  simp [processLines, h]

theorem processLines_cons_true (opts : Opts) (pathExists : String → Bool)
    (x : String) (rest : List String) (n : Nat) (counts : String → Nat)
    (h : line_specifies_path x = true) :
    processLines opts pathExists (x :: rest) n counts =
      (match process_line_containing_path x opts.dest_dir opts.symlink
          opts.absolute counts pathExists with
       | (_, Except.error (PyError.pathException m)) =>
         Except.error (PyError.pathException
           ("ERROR: Configuration file \"" ++ opts.config_name ++ "\" line " ++
             natToDec n ++ ": " ++ m))
       | (_, Except.error e) => Except.error e
       | (counts', Except.ok (newline, operation)) =>
         match processLines opts pathExists rest (n + 1) counts' with
         | Except.error e => Except.error e
         | Except.ok (lines, ops, counts'') =>
           Except.ok (newline :: lines, operation :: ops, counts'')) := by
  simp [processLines, h]

theorem processLines_append (opts : Opts) (pathExists : String → Bool)
    (xs ys : List String) (n : Nat) (counts : String → Nat) :
    processLines opts pathExists (xs ++ ys) n counts =
      (match processLines opts pathExists xs n counts with
       | Except.error e => Except.error e
       | Except.ok (ls, ops, counts') =>
         match processLines opts pathExists ys (n + xs.length) counts' with
         | Except.error e => Except.error e
         | Except.ok (ls', ops', counts'') =>
           Except.ok (ls ++ ls', ops ++ ops', counts'')) := by
  induction xs generalizing n counts with
  | nil =>
    simp only [List.nil_append, List.length_nil, Nat.add_zero, processLines]
    cases h : processLines opts pathExists ys n counts with
    | error e => rfl
    | ok triple =>
      rcases triple with ⟨ls', ops', c''⟩
      rfl
  | cons x xs ih =>
    rw [List.cons_append]
    have hn : n + 1 + xs.length = n + (xs.length + 1) := by omega
    cases hcl : line_specifies_path x with
    | true =>
      rw [processLines_cons_true opts pathExists x (xs ++ ys) n counts hcl,
        processLines_cons_true opts pathExists x xs n counts hcl]
      cases hpl : process_line_containing_path x opts.dest_dir opts.symlink
          opts.absolute counts pathExists with
      | mk counts₂ res =>
        cases res with
        | error e => cases e <;> simp [List.length_cons]
        | ok pair =>
          rcases pair with ⟨newline, op⟩
          simp only []
          rw [ih, hn]
          cases h2 : processLines opts pathExists xs (n + 1) counts₂ with
          | error e => simp [List.length_cons]
          | ok t =>
            rcases t with ⟨ls, ops, c''⟩
            simp only [List.length_cons]
            cases h3 : processLines opts pathExists ys (n + (xs.length + 1)) c'' with
            | error e => rfl
            | ok t2 =>
              rcases t2 with ⟨ls2, ops2, c2⟩
              simp
    | false =>
      rw [processLines_cons_false opts pathExists x (xs ++ ys) n counts hcl,
        processLines_cons_false opts pathExists x xs n counts hcl]
      rw [ih, hn]
      cases h2 : processLines opts pathExists xs (n + 1) counts with
      | error e => simp [List.length_cons]
      | ok t =>
        rcases t with ⟨ls, ops, c''⟩
        simp only [List.length_cons]
        cases h3 : processLines opts pathExists ys (n + (xs.length + 1)) c'' with
        | error e => rfl
        | ok t2 =>
          rcases t2 with ⟨ls2, ops2, c2⟩
          simp

/-- How the planning loop transforms an error raised while processing the
line with the given 1-based number: a `PathException`'s message gets the
config file name and line number prepended, any other error is untouched. -/
def wrapLineError (config_name : String) (line_num : Nat) : PyError → PyError
  | PyError.pathException m =>
    PyError.pathException
      ("ERROR: Configuration file \"" ++ config_name ++ "\" line " ++
        natToDec line_num ++ ": " ++ m)
  | e => e

/-- When the planning loop reaches a line whose processing raises, the loop
fails: a `PathException` is re-raised with the config file name and the
1-based line number prepended to its message, and any other error
propagates unchanged. -/
theorem processLines_prefix_error (opts : Opts) (pathExists : String → Bool)
    (pre post : List String) (bad : String)
    (ls : List String) (ops : List OpEntry) (counts' counts₂ : String → Nat)
    (e : PyError)
    (hpre : processLines opts pathExists pre 1 (fun _ => 0) =
      Except.ok (ls, ops, counts'))
    (hbad : line_specifies_path bad = true)
    (hstep : process_line_containing_path bad opts.dest_dir opts.symlink
        opts.absolute counts' pathExists = (counts₂, Except.error e)) :
    processLines opts pathExists (pre ++ bad :: post) 1 (fun _ => 0) =
      Except.error (wrapLineError opts.config_name (pre.length + 1) e) := by
  rw [processLines_append, hpre]
  simp only []
  rw [processLines_cons_true opts pathExists bad post (1 + pre.length) counts'
    hbad, hstep]
  have hnum : 1 + pre.length = pre.length + 1 := by omega
  cases e with
  | pathException m => simp only [hnum, wrapLineError]
  | indexError => rfl
  | exception m => rfl

/-- When the planning loop fails, `collect_operations` fails with the same
error (provided the destination-directory check passed). -/
theorem collect_operations_of_processLines_error (opts : Opts)
    (pathExists : String → Bool) (filterFn : String → String → String)
    (e : PyError)
    (hdir : pathExists opts.dest_dir = false ∨ opts.force = true)
    (herr : processLines opts pathExists
        (pySplitChar (effectiveConfigText opts filterFn) '\n') 1 (fun _ => 0) =
      Except.error e) :
    collect_operations opts pathExists filterFn = Except.error e := by
  have hcond : (pathExists opts.dest_dir && !opts.force) = false := by
    rcases hdir with h | h <;> simp [h]
  simp [collect_operations, hcond, herr]

/-- Whenever planning succeeds, the plan ends with the launcher write
followed immediately by the launcher chmod. -/
theorem collect_operations_ok_shape (opts : Opts) (pathExists : String → Bool)
    (filterFn : String → String → String) (ops : List OpEntry)
    (h : collect_operations opts pathExists filterFn = Except.ok ops) :
    ∃ pre, ops = pre ++
      [⟨Operation.writeFile (joinTwo opts.dest_dir "joshua")
          (bundle_runner_text opts.mem),
        "Writing the bundle runner file \"" ++
          joinTwo opts.dest_dir "joshua" ++ "\""⟩,
       ⟨Operation.chmod (joinTwo opts.dest_dir "joshua") launcher_mode,
        "Making the bundle runner file executable"⟩] := by
  by_cases hcond : (pathExists opts.dest_dir && !opts.force) = true
  · rw [collect_operations] at h
    simp only [hcond, if_true] at h
    cases h
  · have hcond' : (pathExists opts.dest_dir && !opts.force) = false := by
      simpa using hcond
    rw [collect_operations] at h
    simp only [hcond', Bool.false_eq_true, if_false] at h
    cases hpl : processLines opts pathExists
        (pySplitChar (effectiveConfigText opts filterFn) '\n') 1
        (fun _ => 0) with
    | error e =>
      rw [hpl] at h
      cases h
    | ok t =>
      rcases t with ⟨lines, lops, c⟩
      rw [hpl] at h
      simp only [] at h
      have hops := (Except.ok.inj h).symm
      refine ⟨((if pathExists opts.dest_dir then
          [⟨Operation.rmtree opts.dest_dir,
            "Forcing deletion of existing destination directory \"" ++
              opts.dest_dir ++ "\""⟩] else []) ++
        [⟨Operation.makedirs (joinTwo opts.dest_dir "model"),
          "Creating destination directory \"" ++ opts.dest_dir ++ "\""⟩]) ++
        lops ++
        [⟨Operation.writeFile (joinTwo opts.dest_dir OUTPUT_CONFIG_FILE_NAME)
            (joinWith "\n" lines ++ "\n"),
          "Writing the updated joshua.config to " ++
            joinTwo opts.dest_dir OUTPUT_CONFIG_FILE_NAME⟩], ?_⟩
      rw [hops]
      simp [List.append_assoc]

/-! ## Helper lemmas: occurrence counting and name formatting -/

theorem countOcc_pos_of_mem (a : String) (l : List String) (h : a ∈ l) :
    0 < countOcc a l := by
  induction l with
  | nil => cases h
  | cons x xs ih =>
    rcases List.mem_cons.mp h with h | h
    · subst h
      have hc : countOcc a (a :: xs) = 1 + countOcc a xs := by
        simp [countOcc]
      omega
    · have := ih h
      simp only [countOcc]
      omega

theorem countOcc_take_le (a : String) (l : List String) (k : Nat) :
    countOcc a (l.take k) ≤ countOcc a l := by
  conv_rhs => rw [← List.take_append_drop k l]
  rw [countOcc_append]
  omega

theorem countOcc_take_mono (a : String) (l : List String) (k m : Nat)
    (h : k ≤ m) : countOcc a (l.take k) ≤ countOcc a (l.take m) := by
  have h2 : (l.take m).take k = l.take (k ⊓ m) := List.take_take k m l
  have h3 : k ⊓ m = k := by omega
  rw [h3] at h2
  rw [← h2]
  exact countOcc_take_le a (l.take m) k

theorem countOcc_take_succ (a : String) (l : List String) (i : Nat)
    (h : i < l.length) :
    countOcc a (l.take (i + 1)) =
      countOcc a (l.take i) + (if l.get ⟨i, h⟩ = a then 1 else 0) := by
  have hc := List.take_concat_get l i h
  rw [List.concat_eq_append] at hc
  rw [← hc, countOcc_append]
  have hx : (l.get ⟨i, h⟩ : String) = l[i] := rfl
  simp [countOcc, hx]

theorem get_mem_take_succ (l : List String) (i : Nat) (h : i < l.length) :
    l.get ⟨i, h⟩ ∈ l.take (i + 1) := by
  have hc := List.take_concat_get l i h
  rw [List.concat_eq_append] at hc
  rw [← hc]
  exact List.mem_append.mpr (Or.inr (by simp))

theorem string_data_append (a b : String) :
    (a ++ b).data = a.data ++ b.data := rfl

/-- The disambiguated name `{stem}.{n}{ext}` is never the plain name (it is
strictly longer). -/
theorem fmtName_ne (name : String) (n : Nat) :
    (splitext name).1 ++ "." ++ natToDec n ++ (splitext name).2 ≠ name := by
  intro h
  have hd := congrArg String.data h
  rw [string_data_append, string_data_append, string_data_append] at hd
  have hlen := congrArg List.length hd
  simp only [List.length_append] at hlen
  have hname := congrArg String.data (splitext_fst_append_snd name)
  rw [string_data_append] at hname
  have hnlen := congrArg List.length hname
  simp only [List.length_append] at hnlen
  have hdot : (("." : String)).data.length = 1 := rfl
  have hdec := natToDec_data_length_pos n
  omega

/-- The disambiguated names for two different occurrence counts of the same
name differ. -/
theorem fmtName_inj (name : String) (m n : Nat)
    (h : (splitext name).1 ++ "." ++ natToDec m ++ (splitext name).2 =
      (splitext name).1 ++ "." ++ natToDec n ++ (splitext name).2) : m = n := by
  have hd := congrArg String.data h
  rw [string_data_append, string_data_append, string_data_append,
    string_data_append, string_data_append, string_data_append] at hd
  have h1 := List.append_cancel_right hd
  have h2 := List.append_cancel_left h1
  have h3 : natToDecAux (m + 1) m [] = natToDecAux (n + 1) n [] := h2
  have hm := decValue_natToDecAux (m + 1) m (by omega)
  rw [h3, decValue_natToDecAux (n + 1) n (by omega)] at hm
  omega

/-! ## The claims -/

/-- C3: a line is classified as path-bearing if and only if, after
splitting off any comment at the first `'#'` and tokenizing the config
portion on whitespace, either the first token is one of the file-type
keywords (`lm`, `tm`) or some token is one of the path-bearing flags
(`-path`, `-lm_file`); every other line — including those with an empty
config portion, and those whose only keyword or flag text sits inside the
comment — is classified not path-bearing. -/
theorem C3_theorem (line : String) :
    line_specifies_path line = true ↔
      ∃ t₀ rest, pySplit (extract_line_parts line).config = t₀ :: rest ∧
        (t₀ ∈ FILE_TYPE_TOKENS ∨ ∃ t ∈ t₀ :: rest, t ∈ FILE_TYPE_OPTIONS) :=
  line_specifies_path_iff line

/-- C4: path extraction returns the token immediately following the first
occurrence of the priority-winning path flag (flags checked in the fixed
order `-path`, `-lm_file`), and the last whitespace-delimited token when no
recognized flag is present — `parse_path` coincides with the claim's
description `parse_path_claimed`, with the extraction failure represented
as `none`. -/
theorem C4_theorem (config_line : String) :
    (parse_path config_line).toOption = parse_path_claimed config_line :=
  parse_path_eq_claimed config_line

/-- C5: the i-th result of a call sequence to the destination namer is the
name itself when this is the first occurrence (1-based occurrence count
n = 1 within the calls so far), and `{stem}.{n}{ext}` otherwise, where
`(stem, ext)` is the `os.path.splitext` decomposition of the name and n is
the occurrence count of the name among the first i+1 calls. -/
theorem C5_theorem (names : List String) (i : Nat) (h : i < names.length)
    (h' : i < (runAssign names).length) :
    (runAssign names).get ⟨i, h'⟩ =
      (if countOcc (names.get ⟨i, h⟩) (names.take (i + 1)) = 1
       then names.get ⟨i, h⟩
       else (splitext (names.get ⟨i, h⟩)).1 ++ "." ++
         natToDec (countOcc (names.get ⟨i, h⟩) (names.take (i + 1))) ++
         (splitext (names.get ⟨i, h⟩)).2) := by
  have hg := runAssignAux_get names (fun _ => 0) i h h'
  simpa using hg

/-- C5 witness: the second call with basename `lm.kenlm` returns
`lm.2.kenlm` (Scenario B of the spec). -/
theorem C5_witness :
    (runAssign ["lm.kenlm", "lm.kenlm"]).get ⟨1, by decide⟩ = "lm.2.kenlm" := by
  refine ( C5_theorem ["lm.kenlm", "lm.kenlm"] 1 (by decide) (by decide)).trans ?_
  decide

/-- C1 counterexample: the returned basenames are NOT always pairwise
distinct — for the call sequence `a.2`, `a`, `a` the namer returns `a.2`,
`a`, `a.2`, so the first and third destination basenames collide. -/
theorem C1_counterexample :
    runAssign ["a.2", "a", "a"] = ["a.2", "a", "a.2"] ∧
    ¬ (runAssign ["a.2", "a", "a"]).Nodup := by
  constructor
  · decide
  · decide

/-- C1 (amended): within one run, the first call for any given basename
returns that basename unchanged, and any two calls with the SAME basename
return distinct results; calls with different basenames may collide (see
the counterexample). -/
theorem C1_theorem (names : List String) (i j : Nat)
    (hi : i < names.length) (hj : j < names.length)
    (hi' : i < (runAssign names).length) (hj' : j < (runAssign names).length) :
    (countOcc (names.get ⟨i, hi⟩) (names.take i) = 0 →
      (runAssign names).get ⟨i, hi'⟩ = names.get ⟨i, hi⟩) ∧
    (i < j → names.get ⟨i, hi⟩ = names.get ⟨j, hj⟩ →
      (runAssign names).get ⟨i, hi'⟩ ≠ (runAssign names).get ⟨j, hj'⟩) := by
  have hgi := runAssignAux_get names (fun _ => 0) i hi hi'
  have hgj := runAssignAux_get names (fun _ => 0) j hj hj'
  simp only [Nat.zero_add] at hgi hgj
  constructor
  · intro h0
    show (runAssignAux (fun _ => 0) names).get ⟨i, hi'⟩ = names.get ⟨i, hi⟩
    rw [hgi, countOcc_take_succ _ _ _ hi, h0]
    simp
  · intro hij heq
    show (runAssignAux (fun _ => 0) names).get ⟨i, hi'⟩ ≠
      (runAssignAux (fun _ => 0) names).get ⟨j, hj'⟩
    rw [hgi, hgj]
    have hni : 0 < countOcc (names.get ⟨i, hi⟩) (names.take (i + 1)) :=
      countOcc_pos_of_mem _ _ (get_mem_take_succ names i hi)
    have hstep : countOcc (names.get ⟨i, hi⟩) (names.take (j + 1)) =
        countOcc (names.get ⟨i, hi⟩) (names.take j) + 1 := by
      rw [countOcc_take_succ _ _ _ hj, if_pos heq.symm]
    have hmono : countOcc (names.get ⟨i, hi⟩) (names.take (i + 1)) ≤
        countOcc (names.get ⟨i, hi⟩) (names.take j) :=
      countOcc_take_mono _ _ _ _ (by omega)
    intro hout
    rw [← heq] at hout
    rw [if_neg (by omega :
      ¬ countOcc (names.get ⟨i, hi⟩) (names.take (j + 1)) = 1)] at hout
    by_cases h1 : countOcc (names.get ⟨i, hi⟩) (names.take (i + 1)) = 1
    · rw [if_pos h1] at hout
      exact fmtName_ne _ _ hout.symm
    · rw [if_neg h1] at hout
      have := fmtName_inj _ _ _ hout
      omega

/-- C1 witness: with the call sequence `lm.kenlm`, `lm.kenlm`, the first
call returns `lm.kenlm` unchanged and the two calls with the same basename
return distinct destination basenames. -/
theorem C1_witness :
    countOcc "lm.kenlm" ((["lm.kenlm", "lm.kenlm"] : List String).take 0) = 0 ∧
    (runAssign ["lm.kenlm", "lm.kenlm"]).get ⟨0, by decide⟩ = "lm.kenlm" ∧
    (runAssign ["lm.kenlm", "lm.kenlm"]).get ⟨0, by decide⟩ ≠
      (runAssign ["lm.kenlm", "lm.kenlm"]).get ⟨1, by decide⟩ := by
  have h := C1_theorem ["lm.kenlm", "lm.kenlm"] 0 1 (by decide) (by decide)
    (by decide) (by decide)
  exact ⟨by decide, h.1 (by decide), h.2 (by decide) (by decide)⟩

/-- How `process_line_containing_path` handles a successfully processed
line: the source-path text is replaced throughout the config portion by
Python `str.replace` (every non-overlapping occurrence), the replacement
text being `model/{assigned}` in relative mode and the full destination
path in absolute mode; the comment portion is reattached with `'#'` exactly
when it is non-empty; and the queued operation copies the normalized source
path to `{dest_dir}/model/{assigned}`. -/
theorem process_line_ok (line dest_dir : String) (symlink absolute : Bool)
    (counts : String → Nat) (pathExists : String → Bool) (src_path : String)
    (hparse : parse_path (extract_line_parts line).config = Except.ok src_path)
    (hex : pathExists (normpath src_path) = true) :
    process_line_containing_path line dest_dir symlink absolute counts
        pathExists =
      ((get_unique_dest counts (basename src_path)).2,
       Except.ok
        ((if (extract_line_parts line).comment ≠ "" then
            pyReplace (extract_line_parts line).config src_path
              (if absolute then
                joinTwo (joinTwo dest_dir "model")
                  (get_unique_dest counts (basename src_path)).1
               else joinTwo "model"
                  (get_unique_dest counts (basename src_path)).1) ++ "#" ++
              (extract_line_parts line).comment
          else
            pyReplace (extract_line_parts line).config src_path
              (if absolute then
                joinTwo (joinTwo dest_dir "model")
                  (get_unique_dest counts (basename src_path)).1
               else joinTwo "model"
                  (get_unique_dest counts (basename src_path)).1)),
         ⟨Operation.copy (normpath src_path)
            (joinTwo (joinTwo dest_dir "model")
              (get_unique_dest counts (basename src_path)).1) symlink,
          "Making a copy of " ++ normpath src_path ++ " at " ++
            joinTwo (joinTwo dest_dir "model")
              (get_unique_dest counts (basename src_path)).1⟩)) := by
  simp only [process_line_containing_path, hparse, hex, if_true]

/-- C2 counterexample: for the line `tm = a a` the extracted path text `a`
occurs twice in the config portion, and the rewrite replaces BOTH
occurrences — the rewritten line is `tm = model/a model/a`, not the
claimed `tm = model/a a` (first occurrence only). -/
theorem C2_counterexample :
    (process_line_containing_path "tm = a a" "dest" false false (fun _ => 0)
        (fun _ => true)).2 =
      Except.ok ("tm = model/a model/a",
        ⟨Operation.copy "a" "dest/model/a" false,
         "Making a copy of a at dest/model/a"⟩) ∧
    ("tm = model/a model/a" : String) ≠ "tm = model/a a" := by
  exact ⟨by decide, by decide⟩

/-- C2 (amended): rewriting a path-bearing line performs a literal
substring replacement of EVERY non-overlapping occurrence of the original
path text in the config portion (Python `str.replace` semantics, embodied
by `pyReplace`) — not only the first occurrence; the replacement text is
`model/{assigned_basename}` in relative mode (the default) and the full
destination path in absolute mode, and the comment portion is reattached
unchanged when present. -/
theorem C2_theorem (line dest_dir : String) (symlink absolute : Bool)
    (counts : String → Nat) (pathExists : String → Bool) (src_path : String)
    (hparse : parse_path (extract_line_parts line).config = Except.ok src_path)
    (hex : pathExists (normpath src_path) = true) :
    (process_line_containing_path line dest_dir symlink absolute counts
        pathExists).2 =
      Except.ok
        ((if (extract_line_parts line).comment ≠ "" then
            pyReplace (extract_line_parts line).config src_path
              (if absolute then
                joinTwo (joinTwo dest_dir "model")
                  (get_unique_dest counts (basename src_path)).1
               else joinTwo "model"
                  (get_unique_dest counts (basename src_path)).1) ++ "#" ++
              (extract_line_parts line).comment
          else
            pyReplace (extract_line_parts line).config src_path
              (if absolute then
                joinTwo (joinTwo dest_dir "model")
                  (get_unique_dest counts (basename src_path)).1
               else joinTwo "model"
                  (get_unique_dest counts (basename src_path)).1)),
         ⟨Operation.copy (normpath src_path)
            (joinTwo (joinTwo dest_dir "model")
              (get_unique_dest counts (basename src_path)).1) symlink,
          "Making a copy of " ++ normpath src_path ++ " at " ++
            joinTwo (joinTwo dest_dir "model")
              (get_unique_dest counts (basename src_path)).1⟩) := by
  rw [process_line_ok line dest_dir symlink absolute counts pathExists
    src_path hparse hex]

/-- C2 witness: Scenario A of the spec — the line
`tm = moses pt 0 phrase-table.packed` in relative mode is rewritten to
point at `model/phrase-table.packed` and a copy to
`dest/model/phrase-table.packed` is queued. -/
theorem C2_witness :
    parse_path (extract_line_parts
        "tm = moses pt 0 phrase-table.packed").config =
      Except.ok "phrase-table.packed" ∧
    (process_line_containing_path "tm = moses pt 0 phrase-table.packed"
        "dest" false false (fun _ => 0) (fun _ => true)).2 =
      Except.ok ("tm = moses pt 0 model/phrase-table.packed",
        ⟨Operation.copy "phrase-table.packed"
            "dest/model/phrase-table.packed" false,
          "Making a copy of phrase-table.packed at dest/model/phrase-table.packed"⟩) := by
  refine ⟨by decide, ?_⟩
  rw [ C2_theorem "tm = moses pt 0 phrase-table.packed" "dest" false false
    (fun _ => 0) (fun _ => true) "phrase-table.packed" (by decide) rfl]
  decide

/-- C10: for a path-bearing line whose comment portion is empty — in
particular a line whose last character is the comment marker `'#'`, which
`extract_line_parts` maps to an empty comment — the rewritten line is the
updated config portion only, with no `'#'` re-emitted. -/
theorem C10_theorem (line dest_dir : String) (symlink absolute : Bool)
    (counts : String → Nat) (pathExists : String → Bool) (src_path : String)
    (hparse : parse_path (extract_line_parts line).config = Except.ok src_path)
    (hex : pathExists (normpath src_path) = true)
    (hcom : (extract_line_parts line).comment = "") :
    (process_line_containing_path line dest_dir symlink absolute counts
        pathExists).2 =
      Except.ok
        (pyReplace (extract_line_parts line).config src_path
          (if absolute then
            joinTwo (joinTwo dest_dir "model")
              (get_unique_dest counts (basename src_path)).1
           else joinTwo "model"
              (get_unique_dest counts (basename src_path)).1),
         ⟨Operation.copy (normpath src_path)
            (joinTwo (joinTwo dest_dir "model")
              (get_unique_dest counts (basename src_path)).1) symlink,
          "Making a copy of " ++ normpath src_path ++ " at " ++
            joinTwo (joinTwo dest_dir "model")
              (get_unique_dest counts (basename src_path)).1⟩) := by
  rw [process_line_ok line dest_dir symlink absolute counts pathExists
    src_path hparse hex]
  simp [hcom]

/-- C10 witness: the line `tm = grammar.glue #` ends in the comment marker;
its rewritten form is the updated config portion only, with the `'#'`
dropped. -/
theorem C10_witness :
    (extract_line_parts "tm = grammar.glue #").comment = "" ∧
    (process_line_containing_path "tm = grammar.glue #" "dest" false false
        (fun _ => 0) (fun _ => true)).2 =
      Except.ok ("tm = model/grammar.glue ",
        ⟨Operation.copy "grammar.glue" "dest/model/grammar.glue" false,
         "Making a copy of grammar.glue at dest/model/grammar.glue"⟩) := by
  refine ⟨by decide, ?_⟩
  rw [ C10_theorem "tm = grammar.glue #" "dest" false false (fun _ => 0)
    (fun _ => true) "grammar.glue" (by decide) rfl (by decide)]
  decide

/-- C7: when planning reaches a path-bearing line that references a path
not present on disk, `collect_operations` fails with a `PathException`
whose message names the source config file and the 1-based line number of
the offending line; planning returns no operation list, so the executor is
never reached (`executedOperations` is empty — the tool performs no
filesystem mutation) and the process exits with code 2. -/
theorem C7_theorem (opts : Opts) (pathExists : String → Bool)
    (filterFn : String → String → String)
    (pre post : List String) (bad : String)
    (ls : List String) (ops : List OpEntry) (counts' : String → Nat)
    (src_path : String)
    (hdir : pathExists opts.dest_dir = false ∨ opts.force = true)
    (hlines : pySplitChar (effectiveConfigText opts filterFn) '\n' =
      pre ++ bad :: post)
    (hpre : processLines opts pathExists pre 1 (fun _ => 0) =
      Except.ok (ls, ops, counts'))
    (hbad : line_specifies_path bad = true)
    (hparse : parse_path (extract_line_parts bad).config = Except.ok src_path)
    (hmiss : pathExists (normpath src_path) = false) :
    collect_operations opts pathExists filterFn =
      Except.error (PyError.pathException
        ("ERROR: Configuration file \"" ++ opts.config_name ++ "\" line " ++
          natToDec (pre.length + 1) ++ ": " ++
          ("The path \"" ++ normpath src_path ++
            "\" does not exist. Cannot proceed."))) ∧
    executedOperations opts pathExists filterFn = [] ∧
    mainExitCode opts pathExists filterFn = 2 := by
  have hstep : process_line_containing_path bad opts.dest_dir opts.symlink
      opts.absolute counts' pathExists =
      ((get_unique_dest counts' (basename src_path)).2,
        Except.error (PyError.pathException
          ("The path \"" ++ normpath src_path ++
            "\" does not exist. Cannot proceed."))) := by
    simp [process_line_containing_path, hparse, hmiss]
  have herr : processLines opts pathExists
      (pySplitChar (effectiveConfigText opts filterFn) '\n') 1 (fun _ => 0) =
      Except.error (wrapLineError opts.config_name (pre.length + 1)
        (PyError.pathException
          ("The path \"" ++ normpath src_path ++
            "\" does not exist. Cannot proceed."))) := by
    rw [hlines]
    exact processLines_prefix_error opts pathExists pre post bad ls ops
      counts' _ _ hpre hbad hstep
  have hcol := collect_operations_of_processLines_error opts pathExists
    filterFn _ hdir herr
  refine ⟨?_, ?_, ?_⟩
  · rw [hcol]
    rfl
  · simp [executedOperations, hcol]
  · simp [mainExitCode, hcol]

/-- C7 witness: a one-line config referencing the missing `grammar.gz`
makes planning fail with the file name `joshua.config` and line number 1 in
the message; nothing is executed and the exit code is 2 (Scenario D of the
spec). -/
theorem C7_witness :
    collect_operations ⟨"joshua.config", "tm = moses pt 0 grammar.gz", "d",
        false, "", "4g", false, false⟩ (fun _ => false) (fun t _ => t) =
      Except.error (PyError.pathException
        ("ERROR: Configuration file \"" ++ "joshua.config" ++ "\" line " ++
          natToDec (([] : List String).length + 1) ++ ": " ++
          ("The path \"" ++ normpath "grammar.gz" ++
            "\" does not exist. Cannot proceed."))) ∧
    executedOperations ⟨"joshua.config", "tm = moses pt 0 grammar.gz", "d",
        false, "", "4g", false, false⟩ (fun _ => false) (fun t _ => t) = [] ∧
    mainExitCode ⟨"joshua.config", "tm = moses pt 0 grammar.gz", "d",
        false, "", "4g", false, false⟩ (fun _ => false) (fun t _ => t) = 2 :=
  C7_theorem ⟨"joshua.config", "tm = moses pt 0 grammar.gz", "d", false, "",
      "4g", false, false⟩ (fun _ => false) (fun t _ => t) [] []
    "tm = moses pt 0 grammar.gz" [] [] (fun _ => 0) "grammar.gz"
    (Or.inl rfl) (by decide) rfl (by decide) (by decide) rfl

/-- C6: when a line is classified as path-bearing but the matched path flag
is the final token of the config portion (no token follows it), extraction
fails with an index-out-of-range error; this `IndexError` is not caught by
the planner's `PathException` handler (no file name or line number is
attached) and propagates as a fatal error: planning fails with it, nothing
is executed, and the process exits with code 2. -/
theorem C6_theorem (opts : Opts) (pathExists : String → Bool)
    (filterFn : String → String → String)
    (pre post : List String) (bad : String)
    (ls : List String) (ops : List OpEntry) (counts' : String → Nat)
    (ts : List String) (opt : String)
    (hdir : pathExists opts.dest_dir = false ∨ opts.force = true)
    (hlines : pySplitChar (effectiveConfigText opts filterFn) '\n' =
      pre ++ bad :: post)
    (hpre : processLines opts pathExists pre 1 (fun _ => 0) =
      Except.ok (ls, ops, counts'))
    (htoks : pySplit (extract_line_parts bad).config = ts ++ [opt])
    (hopt : opt ∈ FILE_TYPE_OPTIONS)
    (hts : ∀ o ∈ FILE_TYPE_OPTIONS, o ∉ ts) :
    line_specifies_path bad = true ∧
    parse_path (extract_line_parts bad).config =
      Except.error PyError.indexError ∧
    collect_operations opts pathExists filterFn =
      Except.error PyError.indexError ∧
    executedOperations opts pathExists filterFn = [] ∧
    mainExitCode opts pathExists filterFn = 2 := by
  have hbad : line_specifies_path bad = true := by
    apply (line_specifies_path_iff bad).mpr
    cases ts with
    | nil =>
      exact ⟨opt, [], by simpa using htoks, Or.inr ⟨opt, by simp, hopt⟩⟩
    | cons a as =>
      exact ⟨a, as ++ [opt], by simpa using htoks,
        Or.inr ⟨opt, by simp, hopt⟩⟩
  have hperr := parse_path_flag_last (extract_line_parts bad).config ts opt
    htoks hopt hts
  have hstep : process_line_containing_path bad opts.dest_dir opts.symlink
      opts.absolute counts' pathExists =
      (counts', Except.error PyError.indexError) := by
    simp [process_line_containing_path, hperr]
  have herr : processLines opts pathExists
      (pySplitChar (effectiveConfigText opts filterFn) '\n') 1 (fun _ => 0) =
      Except.error (wrapLineError opts.config_name (pre.length + 1)
        PyError.indexError) := by
    rw [hlines]
    exact processLines_prefix_error opts pathExists pre post bad ls ops
      counts' counts' PyError.indexError hpre hbad hstep
  have hwrap : wrapLineError opts.config_name (pre.length + 1)
      PyError.indexError = PyError.indexError := rfl
  rw [hwrap] at herr
  have hcol := collect_operations_of_processLines_error opts pathExists
    filterFn _ hdir herr
  exact ⟨hbad, hperr, hcol, by simp [executedOperations, hcol],
    by simp [mainExitCode, hcol]⟩

/-- C6 witness: the line `tm = moses -path` (the `-path` flag is the final
token) is classified path-bearing, extraction raises the uncaught
`IndexError`, planning fails with it — with no file name or line number
attached — nothing is executed and the exit code is 2. -/
theorem C6_witness :
    line_specifies_path "tm = moses -path" = true ∧
    parse_path (extract_line_parts "tm = moses -path").config =
      Except.error PyError.indexError ∧
    collect_operations ⟨"joshua.config", "tm = moses -path", "d", false, "",
        "4g", false, false⟩ (fun _ => false) (fun t _ => t) =
      Except.error PyError.indexError ∧
    executedOperations ⟨"joshua.config", "tm = moses -path", "d", false, "",
        "4g", false, false⟩ (fun _ => false) (fun t _ => t) = [] ∧
    mainExitCode ⟨"joshua.config", "tm = moses -path", "d", false, "",
        "4g", false, false⟩ (fun _ => false) (fun t _ => t) = 2 :=
  C6_theorem ⟨"joshua.config", "tm = moses -path", "d", false, "", "4g",
      false, false⟩ (fun _ => false) (fun t _ => t) [] []
    "tm = moses -path" [] [] (fun _ => 0) ["tm", "=", "moses"] "-path"
    (Or.inl rfl) (by decide) rfl (by decide) (by decide) (by decide)

/-- C8: the default of the `-o` (`--copy-config-options`) flag is the
string `-top-n 0 -output-format %S -mark-oovs false` — per the spec's
reading of the external normalization program (not under `src/`), this
enables top-1 output (`-top-n 0`: n-best list off), fixes the output format
(`-output-format %S`) and disables OOV marking (`-mark-oovs false`) — and,
being non-empty, this default is forwarded to the external
config-normalization program. -/
theorem C8_theorem :
    default_copy_config_options =
      "-top-n 0 -output-format %S -mark-oovs false" ∧
    enables_top1_output default_copy_config_options = true ∧
    fixes_output_format default_copy_config_options = true ∧
    disables_oov_marking default_copy_config_options = true ∧
    default_copy_config_options ≠ "" ∧
    ∀ (opts : Opts) (filterFn : String → String → String),
      opts.copy_config_options = default_copy_config_options →
      effectiveConfigText opts filterFn =
        filterFn opts.config_text default_copy_config_options := by
  refine ⟨rfl, by decide, by decide, by decide, by decide, ?_⟩
  intro opts filterFn h
  unfold effectiveConfigText
  rw [h, if_pos (by decide : default_copy_config_options ≠ "")]

/-- C9 counterexample: the chmod queued for the launcher carries mode 365 =
octal 555, which is not 493 = octal 755 — the claim's "0755-equivalent" is
wrong (the owner-write bit is never set). -/
theorem C9_counterexample :
    (executedOperations ⟨"joshua.config", "", "d", false, "", "4g", false,
        false⟩ (fun _ => false) (fun t _ => t)).getLast? =
      some ⟨Operation.chmod "d/joshua" 365,
        "Making the bundle runner file executable"⟩ ∧
    (365 : Nat) ≠ 493 :=
  ⟨by decide, by decide⟩

/-- C9 (amended): whenever planning succeeds, the plan ends with the write
of the launcher to `{dest_dir}/joshua` followed immediately by a chmod of
that launcher with mode 365 = octal 555 — read and execute for owner,
group and world (so world-readable and world-executable), with no write
bits — not octal 755. -/
theorem C9_theorem (opts : Opts) (pathExists : String → Bool)
    (filterFn : String → String → String) (ops : List OpEntry)
    (h : collect_operations opts pathExists filterFn = Except.ok ops) :
    launcher_mode = 365 ∧
    launcher_mode % 8 = 5 ∧
    launcher_mode / 8 % 8 = 5 ∧
    launcher_mode / 64 % 8 = 5 ∧
    ∃ pre, ops = pre ++
      [⟨Operation.writeFile (joinTwo opts.dest_dir "joshua")
          (bundle_runner_text opts.mem),
        "Writing the bundle runner file \"" ++
          joinTwo opts.dest_dir "joshua" ++ "\""⟩,
       ⟨Operation.chmod (joinTwo opts.dest_dir "joshua") launcher_mode,
        "Making the bundle runner file executable"⟩] := by
  exact ⟨by decide, by decide, by decide, by decide,
    collect_operations_ok_shape opts pathExists filterFn ops h⟩

/-- C9 witness: for a concrete empty config the produced plan indeed ends
with the launcher write followed immediately by the chmod. -/
theorem C9_witness :
    ∃ pre, executedOperations ⟨"joshua.config", "", "d", false, "", "4g",
        false, false⟩ (fun _ => false) (fun t _ => t) = pre ++
      [⟨Operation.writeFile (joinTwo "d" "joshua") (bundle_runner_text "4g"),
        "Writing the bundle runner file \"" ++ joinTwo "d" "joshua" ++ "\""⟩,
       ⟨Operation.chmod (joinTwo "d" "joshua") launcher_mode,
        "Making the bundle runner file executable"⟩] := by
  have h : collect_operations ⟨"joshua.config", "", "d", false, "", "4g",
      false, false⟩ (fun _ => false) (fun t _ => t) =
      Except.ok (executedOperations ⟨"joshua.config", "", "d", false, "",
        "4g", false, false⟩ (fun _ => false) (fun t _ => t)) := by
    rfl
  exact ( C9_theorem ⟨"joshua.config", "", "d", false, "", "4g", false,
    false⟩ (fun _ => false) (fun t _ => t) _ h).2.2.2.2

end CopyModel

